import Mathlib

/-!
# Verification of the client-side data synchronization layer

Shallow embedding of the data-sync core of `src/App.jsx`:
the `SyncCache` freshness logic and `fetchData` coordinator
(lines 826-942), the collection-switch effect (lines 946-961),
the mutation gateway `handleRequest` (lines 966-1053), the create
validation `handleCreate` (lines 1056-1113), and the attachment
handlers `handleFileChange` (lines 186-201) / `handleRemoveFile`
(lines 378-392).

JavaScript strings are embedded as Lean `String`; the substring and
prefix tests used by the code (`String.prototype.includes`,
`String.prototype.startsWith`) are defined over the underlying
character lists so that every definition evaluates by kernel
reduction.
-/

namespace ProductLineApp

/-- Embedding of JavaScript `pat.isPrefixOf s`-style `s.startsWith(pat)`:
character-list prefix test. -/
def startsWithStr (s pat : String) : Bool :=
  pat.data.isPrefixOf s.data

/-- Helper for `includesStr`: does `pat` occur starting at some position of
the character list? -/
def subOccurs (pat : List Char) : List Char → Bool
  | [] => pat.isPrefixOf []
  | c :: cs => pat.isPrefixOf (c :: cs) || subOccurs pat cs

/-- Embedding of JavaScript `s.includes(pat)`: substring occurrence test. -/
def includesStr (s pat : String) : Bool :=
  subOccurs pat.data s.data

/-! ## Attachment entries

`src/App.jsx` keeps each attachment field as one JavaScript array whose
elements are either server path strings (`Remote` in the spec; recognised
at runtime by `typeof f === 'string' && f.startsWith('uploads/')`) or
`File` objects (`Local` in the spec; recognised by `f instanceof File`).
-/

/-- One element of an attachment field's array: a `File` object selected
client-side (identified by its name) or a string (a server storage path
when it starts with `uploads/`). -/
inductive FileOrPath where
  | file (name : String)
  | path (p : String)
deriving DecidableEq, Repr

/-- Runtime test `f instanceof File` (line 303 / 973 / 984 of App.jsx). -/
def FileOrPath.isFile : FileOrPath → Bool
  | .file _ => true
  | .path _ => false

/-- Runtime test `typeof f === 'string' && f.startsWith('uploads/')`
(line 302 / 986 / 1006 of App.jsx). -/
def FileOrPath.isUploadsPath : FileOrPath → Bool
  | .file _ => false
  | .path p => startsWithStr p "uploads/"

/-- `handleFileChange(field, fileOrFiles)` with an array argument
(App.jsx lines 186-197): the field is rebuilt as the existing
`uploads/` paths of the current value followed by the `File` objects of
the incoming selection. -/
def handleFileChange (current incoming : List FileOrPath) : List FileOrPath :=
  current.filter FileOrPath.isUploadsPath ++ incoming.filter FileOrPath.isFile

/-- `handleRemoveFile(indexToRemove, isNewFile)` (App.jsx lines 378-392):
the current value is partitioned into `existingPaths` (the `uploads/`
strings) and `newFiles` (the `File` objects); one entry is removed at
`indexToRemove` inside the chosen partition (`filter((_, index) =>
index !== indexToRemove)` drops exactly the element at that index) and
the field is rebuilt as `existingPaths ++ newFiles`. -/
def handleRemoveFile (current : List FileOrPath) (indexToRemove : Nat)
    (isNewFile : Bool) : List FileOrPath :=
  let existingPaths := current.filter FileOrPath.isUploadsPath
  let newFiles := current.filter FileOrPath.isFile
  if isNewFile then
    existingPaths ++ newFiles.eraseIdx indexToRemove
  else
    existingPaths.eraseIdx indexToRemove ++ newFiles

/-! ## JavaScript values and the mutation payload encoder

`handleRequest` (App.jsx lines 966-1053) receives the mutation body as a
JavaScript object; its values are strings, numbers, booleans, `null`,
or attachment arrays. `undef` stands for `undefined` (a field read that
is absent from the object). -/

/-- A JavaScript value as it occurs in a mutation payload or form state. -/
inductive JSVal where
  | str (s : String)
  | num (n : Int)
  | bool (b : Bool)
  | null
  | undef
  | arr (es : List FileOrPath)
deriving DecidableEq, Repr

/-- JavaScript truthiness, as used by `!!value` and `!value` in the
validation code: empty string, `0`, `false`, `null` and `undefined` are
falsy; any array object is truthy. -/
def JSVal.truthy : JSVal → Bool
  | .str s => decide (s ≠ "")
  | .num n => decide (n ≠ 0)
  | .bool b => b
  | .null => false
  | .undef => false
  | .arr _ => true

/-- String coercion applied by `FormData.append(key, value)` to a
non-`File` value. Attachment arrays never reach this branch in the
source (they are matched by the file-field branch first). -/
def JSVal.asFormText : JSVal → String
  | .str s => s
  | .num n => toString n
  | .bool b => if b then "true" else "false"
  | .null => "null"
  | .undef => "undefined"
  | .arr es => String.intercalate ","
      (es.map fun e => match e with
        | .file _ => "[object File]"
        | .path p => p)

/-- `const fileFields = ['attachments_raw', 'product_pictures']`
(App.jsx line 971 and 1002). -/
def fileFields : List String := ["attachments_raw", "product_pictures"]

/-- `body[field]` on the payload object (modelled as an association list
in JavaScript key-insertion order). -/
def lookupKey (body : List (String × JSVal)) (k : String) : Option JSVal :=
  (body.find? fun e => e.1 = k).map (·.2)

/-- `hasFile` (App.jsx line 973): some file field of the body is an
array containing at least one `File` instance. -/
def hasFileBody (body : List (String × JSVal)) : Bool :=
  fileFields.any fun f =>
    match lookupKey body f with
    | some (.arr es) => es.any FileOrPath.isFile
    | _ => false

/-- One part of a multipart `FormData` request: a binary file part or a
plain text value. -/
inductive Part where
  | filePart (name : String)
  | textPart (value : String)
deriving DecidableEq, Repr

/-- The wire encoding chosen by `handleRequest`: a multipart form body
(ordered `append` calls) or a JSON object. -/
inductive Encoded where
  | multipart (parts : List (String × Part))
  | json (fields : List (String × JSVal))
deriving DecidableEq, Repr

/-- Does the encoder's choice match `multipart`? -/
def Encoded.isMultipart : Encoded → Bool
  | .multipart _ => true
  | .json _ => false

/-- The `FormData.append` calls produced for one body entry in the
multipart branch (App.jsx lines 981-994): an attachment array under a
file field appends each `File` as a binary part under the field key and
each `uploads/` string under the `_retained` marker key, dropping
anything else; a non-file-field entry is appended as text unless its
value is `null` or its key is `id`; a file-field entry whose value is
not an array is skipped entirely. -/
def multipartEntryParts (e : String × JSVal) : List (String × Part) :=
  match e.2 with
  | .arr es =>
    if fileFields.contains e.1 then
      es.filterMap fun a =>
        match a with
        | .file n => some (e.1, .filePart n)
        | .path p =>
          if startsWithStr p "uploads/" then some (e.1 ++ "_retained", .textPart p)
          else none
    else if e.2 = JSVal.null ∨ e.1 = "id" then []
    else [(e.1, .textPart e.2.asFormText)]
  | v =>
    if v = JSVal.null ∨ e.1 = "id" then []
    else [(e.1, .textPart v.asFormText)]

/-- The JSON field produced for one body entry in the structured-text
branch (App.jsx lines 1003-1012): the `id` key is dropped, attachment
arrays under file fields are reduced to their `uploads/` path strings,
and every other entry is kept as is. -/
def jsonFieldOfEntry (e : String × JSVal) : Option (String × JSVal) :=
  if e.1 = "id" then none
  else
    match e.2 with
    | .arr es =>
      if fileFields.contains e.1 then some (e.1, .arr (es.filter FileOrPath.isUploadsPath))
      else some e
    | _ => some e

/-- The payload-encoding step of `handleRequest` (App.jsx lines
971-1014): if any file field holds a `File`, the whole body is encoded
as multipart form data, otherwise as JSON. -/
def encodeBody (body : List (String × JSVal)) : Encoded :=
  if hasFileBody body then .multipart (body.flatMap multipartEntryParts)
  else .json (body.filterMap jsonFieldOfEntry)

/-! ## Field types and create validation -/

/-- The substring keywords of the first branch of `getFieldType`
(App.jsx line 79) mapping a field name to the textarea widget. -/
def textareaKeywords : List String :=
  ["history", "description", "strategy", "capacity", "parameters", "tooling",
   "advantages", "costing_data", "definition", "environment", "locations",
   "center", "metiers", "strength", "weakness", "perspectives", "customers",
   "prototypes_ppap_and_sop", "engineering_and_testing", "type_of_products"]

/-- `getFieldType` (App.jsx lines 78-87): field-kind dispatch by
substring matching on the field name. -/
def getFieldType (field : String) : String :=
  if textareaKeywords.any (includesStr field) then "textarea"
  else if includesStr field "gmdc_pct" || includesStr field "estimated_price" then "number"
  else if includesStr field "prod_if_customer_in_china" then "checkbox"
  else if includesStr field "product_pictures" then "file_image"
  else if includesStr field "attachments_raw" then "file_attachment"
  else "text"

/-- The two collections reachable from the main tabs
(`collectionKeys` excludes `users`, App.jsx line 48). -/
inductive ActiveKey where
  | product_lines
  | products
deriving DecidableEq, Repr

/-- `requiredFields` of the two active collections
(App.jsx lines 21 and 31). -/
def requiredFields : ActiveKey → List String
  | .product_lines => ["name", "product_line_manager"]
  | .products => ["product_name", "product_line"]

/-- The special case at App.jsx line 1062/1074: for the products
collection the field `prod_if_customer_in_china` is exempt from the
required check. -/
def chinaSkip (k : ActiveKey) (field : String) : Bool :=
  decide (k = .products) && decide (field = "prod_if_customer_in_china")

/-- One conjunct of `requiredCheck` in `handleCreate` (App.jsx lines
1059-1069): a file-typed field passes when its value is a non-empty
array, any other field when its value is truthy. -/
def requiredFieldOk (k : ActiveKey) (data : String → JSVal) (field : String) : Bool :=
  if chinaSkip k field then true
  else if includesStr (getFieldType field) "file" then
    match data field with
    | .arr es => decide (0 < es.length)
    | _ => false
  else (data field).truthy

/-- The filter that builds the error message's field list (App.jsx
lines 1072-1077). Note the asymmetry with `requiredFieldOk`: a
file-typed field is listed only when its value is an array (of length
zero). -/
def missingRequiredFilter (k : ActiveKey) (data : String → JSVal) (field : String) : Bool :=
  if chinaSkip k field then false
  else if includesStr (getFieldType field) "file" then
    match data field with
    | .arr es => decide (es.length = 0)
    | _ => false
  else !(data field).truthy

/-- Outcome of the validation stage of `handleCreate`: either an inline
validation error (no network call: the handler returns before
`handleRequest` is invoked, App.jsx line 1078) or the hand-off to
`handleRequest` (payload construction, App.jsx lines 1081-1112, is not
needed by any claim and is not modelled). -/
inductive CreateOutcome where
  | validationError (msg : String)
  | networkRequest
deriving DecidableEq, Repr

/-- The validation stage of `handleCreate` (App.jsx lines 1056-1079). -/
def handleCreate (k : ActiveKey) (data : String → JSVal) : CreateOutcome :=
  if (requiredFields k).all (requiredFieldOk k data) then .networkRequest
  else .validationError ("Missing required fields: " ++
    String.intercalate ", " ((requiredFields k).filter (missingRequiredFilter k data)))

/-- A required field is missing in the sense of claim C7: an empty
(falsy) value, or an empty attachment array for an attachment-typed
field. -/
def missingPerClaim (field : String) (v : JSVal) : Bool :=
  if includesStr (getFieldType field) "file" then decide (v = .arr [])
  else !v.truthy

/-! ## SyncCache and the fetch coordinator

`fetchData` (App.jsx lines 826-942) is a `useCallback` closure: it
captures `activeCollectionKey`, `dataCache`, `logs`, `isInitialLoad`
and the flags at call time.  The work after `await Promise.all`
(lines 900-941) runs when the responses arrive; it reads only the
captured values, except that the `setDataCache(prev => ...)` functional
updates apply to the cache state current at arrival time.  The
embedding therefore splits a call into an `issueFetch` step (the
synchronous prefix, lines 827-898) producing a `Captured` record, and a
`resolveFetch` step (lines 900-941) applied to the state current when
the responses arrive.

Record contents never matter to the coordinator, only array identity
and emptiness, so the record and audit-log row types are parameters
`R` and `L`. -/

/-- The three keys of the `dataCache` object (App.jsx lines 773-777). -/
inductive CacheKey where
  | product_lines
  | products
  | productLinesList
deriving DecidableEq, Repr

/-- The cache key of an active collection. -/
def ActiveKey.toCacheKey : ActiveKey → CacheKey
  | .product_lines => .product_lines
  | .products => .products

/-- One `dataCache` entry: `{ data, timestamp }`. -/
structure CacheEntry (R : Type) where
  data : List R
  timestamp : Nat
deriving DecidableEq, Repr

/-- `cacheTTL` (App.jsx line 838): five minutes in milliseconds. -/
def cacheTTL : Nat := 300000

/-- Point update of the cache object, as performed by
`setDataCache(prev => ({ ...prev, [key]: entry }))`. -/
def updateCache (c : CacheKey → Option (CacheEntry R)) (k : CacheKey)
    (e : CacheEntry R) : CacheKey → Option (CacheEntry R) :=
  fun k' => if k' = k then some e else c k'

/-- The initial `dataCache` state (App.jsx lines 773-777), also restored
by `handleLogout` (lines 817-821): every key present with empty data and
timestamp zero. -/
def initialCache (R : Type) : CacheKey → Option (CacheEntry R) :=
  fun _ => some ⟨[], 0⟩

/-- The per-source refetch decision (App.jsx lines 841-842):
`isUserAction || !dataCache[key] || (now - dataCache[key].timestamp) > cacheTTL`.
JavaScript computes a possibly negative difference whose comparison with
`cacheTTL` is false exactly when truncated `Nat` subtraction yields a
value not exceeding `cacheTTL`, so `Nat` subtraction is faithful. -/
def shouldFetchSource (isUserAction : Bool) (entry : Option (CacheEntry R))
    (now : Nat) : Bool :=
  isUserAction ||
    match entry with
    | none => true
    | some e => decide (now - e.timestamp > cacheTTL)

/-- An entry is served from cache (no network read) on a
non-user-action pass exactly when the refetch decision is negative. -/
def isFreshCode (entry : Option (CacheEntry R)) (now : Nat) : Bool :=
  !(shouldFetchSource false entry now)

/-- `dataCache[k].data`, with the `?.data || []` default used in the
merge fallbacks (App.jsx lines 904 and 914). -/
def cachedData (cache : CacheKey → Option (CacheEntry R)) (k : CacheKey) : List R :=
  match cache k with
  | some e => e.data
  | none => []

/-- What the network returns for one source of a resync.

* `ok`: a 2xx response whose body parses to an array.
* `httpErr`: a non-2xx response or a network failure; `safeFetch`
  (App.jsx lines 848-861) catches it, records the message via
  `setApiError`, and resolves with `[]`.
* `badBody`: a 2xx response whose body fails JSON parsing. `safeFetch`
  returns `response.json()` (line 855) without awaiting it, so this
  rejection escapes `safeFetch`'s `try`/`catch` and rejects the
  `Promise.all`, reaching the outer `catch` (lines 928-935). -/
inductive FetchOutcome (α : Type) where
  | ok (data : List α)
  | httpErr (msg : String)
  | badBody (msg : String)
deriving DecidableEq, Repr

/-- The array a settled `safeFetch` promise carries (`[]` on a caught
error). Only meaningful when the source was fetched and did not
reject. -/
def FetchOutcome.settledData : FetchOutcome α → List α
  | .ok d => d
  | .httpErr _ => []
  | .badBody _ => []

/-- The message `safeFetch` records via `setApiError` for this source,
if any. -/
def FetchOutcome.recordedError : FetchOutcome α → Option String
  | .httpErr m => some m
  | _ => none

/-- The rejection this source injects into `Promise.all`, if any. -/
def FetchOutcome.rejection : FetchOutcome α → Option String
  | .badBody m => some m
  | _ => none

/-- `o` settles (does not reject the `Promise.all`). -/
def FetchOutcome.settles : FetchOutcome α → Bool
  | .badBody _ => false
  | _ => true

/-- The closure state one `fetchData` call captures at issue time. -/
structure Captured (R L : Type) where
  activeKey : ActiveKey
  isUserAction : Bool
  isInitialLoad : Bool
  now : Nat
  cache : CacheKey → Option (CacheEntry R)
  logs : List L

/-- `shouldFetchMainData` (App.jsx line 841) for a capture. -/
def Captured.shouldFetchMain (c : Captured R L) : Bool :=
  shouldFetchSource c.isUserAction (c.cache c.activeKey.toCacheKey) c.now

/-- `shouldFetchProductLines` (App.jsx line 842) for a capture. -/
def Captured.shouldFetchPL (c : Captured R L) : Bool :=
  shouldFetchSource c.isUserAction (c.cache .productLinesList) c.now

/-- The audit-log fetch condition `shouldFetchLogs || isInitialLoad`
(App.jsx lines 843 and 876): `shouldFetchLogs` is just `isUserAction`. -/
def Captured.fetchesLogs (c : Captured R L) : Bool :=
  c.isUserAction || c.isInitialLoad

/-- The component state the coordinator reads and writes. `loggedOut`
records whether `handleLogout` (App.jsx lines 795-822) has fired; the
cleared bearer token and storage are summarised by that flag. -/
structure AppState (R L : Type) where
  activeKey : ActiveKey
  items : List R
  logs : List L
  allProductLines : List R
  cache : CacheKey → Option (CacheEntry R)
  apiError : Option String
  isLoading : Bool
  isInitialLoad : Bool
  loggedOut : Bool

/-- The state effect of `handleLogout` (App.jsx lines 810-821): clear
items and logs and reset the cache to its initial three empty
entries. -/
def applyLogout (s : AppState R L) : AppState R L :=
  { s with loggedOut := true, items := [], logs := [], cache := initialCache R }

/-- The synchronous prefix of a `fetchData(isUserAction)` call for an
authenticated session (App.jsx lines 832-898): raise the loading flag
for an initial load or a user action, clear `apiError`, and capture the
closure state. (The `!authToken || !userData` early return at lines
827-830 is modelled in `fetchDataCall`.) -/
def issueFetch (isUserAction : Bool) (now : Nat) (s : AppState R L) :
    AppState R L × Captured R L :=
  ({ s with
      isLoading := if s.isInitialLoad || isUserAction then true else s.isLoading,
      apiError := none },
   ⟨s.activeKey, isUserAction, s.isInitialLoad, now, s.cache, s.logs⟩)

/-- The first rejection `Promise.all` propagates, if any source that was
actually fetched had a malformed 2xx body. Sources that were not
fetched resolve via `Promise.resolve` and cannot reject. (When several
fetched sources reject, real settlement order picks one of them; the
model takes them in issue order `main, logs, productLines`.) -/
def firstRejection (c : Captured R L) (mo : FetchOutcome R) (lo : FetchOutcome L)
    (po : FetchOutcome R) : Option String :=
  (if c.shouldFetchMain then mo.rejection else none).orElse fun _ =>
    (if c.fetchesLogs then lo.rejection else none).orElse fun _ =>
      if c.shouldFetchPL then po.rejection else none

/-- The `setApiError` messages recorded by failing `safeFetch` calls, in
issue order `main, logs, productLines` (real settlement order may
permute this list; the claims below depend only on which messages are
recorded, not on their order). -/
def recordedErrors (c : Captured R L) (mo : FetchOutcome R) (lo : FetchOutcome L)
    (po : FetchOutcome R) : List String :=
  ((if c.shouldFetchMain then mo.recordedError else none).toList) ++
    ((if c.fetchesLogs then lo.recordedError else none).toList) ++
    ((if c.shouldFetchPL then po.recordedError else none).toList)

/-- The session-teardown test of the outer catch (App.jsx line 930):
`error.message.includes('Failed to fetch') || error.message.includes('Invalid or expired token')`. -/
def isSessionTeardownMsg (msg : String) : Bool :=
  includesStr msg "Failed to fetch" || includesStr msg "Invalid or expired token"

/-- The `finally` block (App.jsx lines 936-941): clear the loading flag
and the initial-load marker when the call raised the indicator. -/
def applyFinally (c : Captured R L) (s : AppState R L) : AppState R L :=
  if c.isInitialLoad || c.isUserAction then
    { s with isLoading := false, isInitialLoad := false }
  else s

/-- The continuation of a `fetchData` call when its responses arrive
(App.jsx lines 900-941), applied to the state `s` current at arrival
time. Fallback reads use the captured cache and logs; the
`setDataCache` functional updates apply to `s.cache`. No branch
compares the captured key with `s.activeKey`: the result is applied
regardless of which collection is active when it arrives. -/
def resolveFetch (s : AppState R L) (c : Captured R L) (mo : FetchOutcome R)
    (lo : FetchOutcome L) (po : FetchOutcome R) : AppState R L :=
  match firstRejection c mo lo po with
  | some msg =>
    -- outer catch (App.jsx lines 928-935)
    applyFinally c <|
      if isSessionTeardownMsg msg then
        { applyLogout s with
            apiError := some "Session expired or API unreachable. Please log in again." }
      else
        { s with apiError := some (if msg = "" then
            "Failed to fetch data from API. Check server status." else msg) }
  | none =>
    -- merge (App.jsx lines 901-926)
    let mainKey := c.activeKey.toCacheKey
    let fetchedItems := if c.shouldFetchMain then mo.settledData
      else cachedData c.cache mainKey
    let finalItems := if fetchedItems.isEmpty then cachedData c.cache mainKey
      else fetchedItems
    let cache1 := if c.shouldFetchMain && !fetchedItems.isEmpty then
      updateCache s.cache mainKey ⟨fetchedItems, c.now⟩ else s.cache
    let fetchedPL := if c.shouldFetchPL then po.settledData
      else cachedData c.cache .productLinesList
    let finalPL := if fetchedPL.isEmpty then cachedData c.cache .productLinesList
      else fetchedPL
    let cache2 := if c.shouldFetchPL && !fetchedPL.isEmpty then
      updateCache cache1 .productLinesList ⟨fetchedPL, c.now⟩ else cache1
    let fetchedLogs := if c.fetchesLogs then lo.settledData else c.logs
    applyFinally c
      { s with
          items := finalItems
          allProductLines := finalPL
          logs := if c.fetchesLogs then fetchedLogs else s.logs
          cache := cache2
          apiError := (recordedErrors c mo lo po).getLast?.orElse fun _ => s.apiError }

/-- A whole `fetchData(isUserAction)` call that runs without
interleaving: issue followed immediately by resolution. `auth` is the
`authToken && userData` guard of lines 827-830. -/
def fetchDataCall (auth isUserAction : Bool) (now : Nat) (s : AppState R L)
    (mo : FetchOutcome R) (lo : FetchOutcome L) (po : FetchOutcome R) : AppState R L :=
  if auth then
    let ic := issueFetch isUserAction now s
    resolveFetch ic.1 ic.2 mo lo po
  else { s with isLoading := false }

/-- A collection-tab switch for an authenticated session:
`handleCollectionSwitch` (App.jsx lines 1177-1182) sets the active key,
then the effect at lines 946-961 runs: if the new key's cache entry has
data, show it immediately and issue a background `fetchData(false)`;
otherwise issue `fetchData(true)`. Returns the post-switch state and
the capture of the fetch now in flight. -/
def switchCollection (now : Nat) (s : AppState R L) (k : ActiveKey) :
    AppState R L × Captured R L :=
  let s0 := { s with activeKey := k }
  match s0.cache k.toCacheKey with
  | some e =>
    if !e.data.isEmpty then issueFetch false now { s0 with items := e.data }
    else issueFetch true now s0
  | none => issueFetch true now s0

/-! ## The mutation gateway: success-path ordering

`handleRequest` (App.jsx lines 966-1053) is shared by Create (`POST`),
Update (`PUT`) and Delete (`DELETE`); the observable step sequence is
the same for all three methods. -/

/-- The observable steps of one `handleRequest` call, in program
order. -/
inductive MutEvent where
  | setLoadingOn
  | clearApiError
  | issueNetworkRequest
  | notifySuccess
  | invalidateCaches
  | runSuccessCallback
  | issueResyncUserAction
  | surfaceError (msg : String)
  | setLoadingOff
deriving DecidableEq, Repr

/-- The step sequence of `handleRequest` (App.jsx lines 966-1053).
With no token it returns at once (line 967). Otherwise it raises the
loading flag and clears `apiError` (968-969), encodes and issues the
request (971-1021); on a 2xx response it fires the success notification
(1028-1034), resets both cache entries (1036-1040), runs the caller's
`successCallback` (1043), and only then issues `fetchData(true)`
(1044); on failure it surfaces the error (1046-1049); the `finally`
clears the loading flag (1050-1052). -/
def handleRequestTrace (auth : Bool) (outcome : Except String Unit) : List MutEvent :=
  if auth then
    match outcome with
    | .ok _ =>
      [.setLoadingOn, .clearApiError, .issueNetworkRequest, .notifySuccess,
       .invalidateCaches, .runSuccessCallback, .issueResyncUserAction, .setLoadingOff]
    | .error m =>
      [.setLoadingOn, .clearApiError, .issueNetworkRequest, .surfaceError m,
       .setLoadingOff]
  else []

/-- The cache effect of the `invalidateCaches` step (App.jsx lines
1036-1040): the active collection's entry and `productLinesList` are
both reset to `{ data: [], timestamp: 0 }`; other entries are kept. -/
def invalidateOnSuccess (akey : ActiveKey) (cache : CacheKey → Option (CacheEntry R)) :
    CacheKey → Option (CacheEntry R) :=
  fun k => if k = akey.toCacheKey ∨ k = .productLinesList then some ⟨[], 0⟩ else cache k

/-! ## The mutation gateway: concurrency

Each `handleRequest` invocation consists of two atomic blocks separated
by the `await` of the network response (JavaScript's single-threaded
cooperative scheduling): block `0` is the synchronous prefix up to and
including issuing the request (App.jsx lines 966-1021), block `1` is
the response continuation (invalidate, success callback, resync issue,
clear loading; lines 1023-1052). The source keeps no record of in-flight
mutations, so no block reads or checks any other invocation's progress:
a scheduled block always executes. -/

/-- Progress of two concurrent `handleRequest` invocations on the same
collection key: per-invocation phase (`0` = not started, `1` = request
issued and awaiting its response, `2` = finished) and the executed
blocks in order. -/
structure GatewayRun where
  phases : Fin 2 → Nat
  events : List (Fin 2 × Nat)

/-- Scheduling one block of invocation `i`: with a token present the
next block of `i` runs unconditionally (the source has no check against
the other invocation); with no token the invocation returns without
starting (App.jsx line 967). -/
def gatewayStep (auth : Bool) (st : GatewayRun) (i : Fin 2) : GatewayRun :=
  if auth then
    if st.phases i < 2 then
      { phases := fun j => if j = i then st.phases i + 1 else st.phases j,
        events := st.events ++ [(i, st.phases i)] }
    else st
  else st

/-- Run two concurrent same-key `handleRequest` invocations under an
arbitrary interleaving schedule. -/
def gatewayRun (auth : Bool) (sched : List (Fin 2)) : GatewayRun :=
  sched.foldl (gatewayStep auth) ⟨fun _ => 0, []⟩

/-! ## Helper lemmas -/

/-- One scheduled block of an authenticated invocation advances that
invocation's phase and leaves the other untouched. -/
theorem gatewayStep_phases (st : GatewayRun) (j i : Fin 2) :
    (gatewayStep true st j).phases i =
      if st.phases j < 2 then (if i = j then st.phases j + 1 else st.phases i)
      else st.phases i := by
  by_cases h : st.phases j < 2
  · by_cases hij : i = j
    · subst hij; simp [gatewayStep, h]
    · simp [gatewayStep, h, hij]
  · simp [gatewayStep, h]

/-- Folding the authenticated gateway step over a schedule advances each
invocation by its number of scheduled slots, clipped at completion. -/
theorem gatewayRun_foldl_count (i : Fin 2) (sched : List (Fin 2)) :
    ∀ st : GatewayRun, st.phases i ≤ 2 →
      (sched.foldl (gatewayStep true) st).phases i = min (st.phases i + sched.count i) 2 := by
  induction sched with
  | nil => intro st h; simp; omega
  | cons j rest ih =>
    intro st h
    have hstep := gatewayStep_phases st j i
    have hle : (gatewayStep true st j).phases i ≤ 2 := by
      by_cases hj : st.phases j < 2
      · by_cases hij : i = j
        · rw [hstep, if_pos hj, if_pos hij]; omega
        · rw [hstep, if_pos hj, if_neg hij]; exact h
      · rw [hstep, if_neg hj]; exact h
    rw [List.foldl_cons, ih (gatewayStep true st j) hle, hstep, List.count_cons]
    by_cases hij : i = j
    · subst hij
      by_cases hj : st.phases i < 2 <;> simp [hj] <;> omega
    · by_cases hj : st.phases j < 2
      · rw [if_pos hj, if_neg hij]
        simp [beq_iff_eq, Ne.symm hij]
      · rw [if_neg hj]
        simp [beq_iff_eq, Ne.symm hij]

/-- Characterization of a resolving user-action resync whose three
sources all settle successfully: the merge of App.jsx lines 900-926
applied to the arrival-time state `s` and the captured closure values. -/
theorem resolveFetch_all_ok {R L : Type} (akey : ActiveKey) (iil : Bool) (now : Nat)
    (cache : CacheKey → Option (CacheEntry R)) (lgs : List L)
    (s : AppState R L) (md : List R) (ld : List L) (pd : List R) :
    let r := resolveFetch s ⟨akey, true, iil, now, cache, lgs⟩ (.ok md) (.ok ld) (.ok pd)
    r.items = (if md.isEmpty then cachedData cache akey.toCacheKey else md) ∧
    r.allProductLines = (if pd.isEmpty then cachedData cache .productLinesList else pd) ∧
    r.logs = ld ∧
    r.cache akey.toCacheKey = (if md.isEmpty then s.cache akey.toCacheKey else some ⟨md, now⟩) ∧
    r.cache .productLinesList = (if pd.isEmpty then s.cache .productLinesList else some ⟨pd, now⟩) ∧
    r.apiError = s.apiError ∧ r.activeKey = s.activeKey ∧ r.loggedOut = s.loggedOut := by
  cases akey <;> by_cases hmd : md.isEmpty <;> by_cases hpd : pd.isEmpty <;>
    simp [resolveFetch, firstRejection, FetchOutcome.rejection, FetchOutcome.settledData,
      FetchOutcome.recordedError, recordedErrors, Captured.shouldFetchMain,
      Captured.shouldFetchPL, Captured.fetchesLogs, shouldFetchSource, applyFinally,
      updateCache, cachedData, Option.orElse, hmd, hpd, ActiveKey.toCacheKey]

/-- Characterization of a resolving user-action resync whose primary
fetch failed with a caught (non-2xx / network) error while the other
two sources succeed. -/
theorem resolveFetch_main_httpErr {R L : Type} (akey : ActiveKey) (iil : Bool) (now : Nat)
    (cache : CacheKey → Option (CacheEntry R)) (lgs : List L)
    (s : AppState R L) (m : String) (ld : List L) (pd : List R) :
    let r := resolveFetch s ⟨akey, true, iil, now, cache, lgs⟩ (.httpErr m) (.ok ld) (.ok pd)
    r.items = cachedData cache akey.toCacheKey ∧
    r.cache akey.toCacheKey = s.cache akey.toCacheKey ∧
    r.apiError = some m ∧
    r.loggedOut = s.loggedOut ∧
    r.allProductLines = (if pd.isEmpty then cachedData cache .productLinesList else pd) ∧
    r.cache .productLinesList = (if pd.isEmpty then s.cache .productLinesList else some ⟨pd, now⟩) ∧
    r.logs = ld ∧ r.activeKey = s.activeKey := by
  cases akey <;> by_cases hpd : pd.isEmpty <;>
    simp [resolveFetch, firstRejection, FetchOutcome.rejection, FetchOutcome.settledData,
      FetchOutcome.recordedError, recordedErrors, Captured.shouldFetchMain,
      Captured.shouldFetchPL, Captured.fetchesLogs, shouldFetchSource, applyFinally,
      updateCache, cachedData, Option.orElse, hpd, ActiveKey.toCacheKey]

/-- Characterization of a resolving user-action resync whose audit-log
fetch failed with a caught error while the other two sources succeed:
the log view state is replaced by the degraded empty result. -/
theorem resolveFetch_logs_httpErr {R L : Type} (akey : ActiveKey) (iil : Bool) (now : Nat)
    (cache : CacheKey → Option (CacheEntry R)) (lgs : List L)
    (s : AppState R L) (md : List R) (m2 : String) (pd : List R) :
    let r := resolveFetch s ⟨akey, true, iil, now, cache, lgs⟩ (.ok md) (.httpErr m2) (.ok pd)
    r.logs = ([] : List L) ∧
    r.loggedOut = s.loggedOut ∧
    r.apiError = some m2 ∧
    r.items = (if md.isEmpty then cachedData cache akey.toCacheKey else md) := by
  cases akey <;> by_cases hmd : md.isEmpty <;>
    simp [resolveFetch, firstRejection, FetchOutcome.rejection, FetchOutcome.settledData,
      FetchOutcome.recordedError, recordedErrors, Captured.shouldFetchMain,
      Captured.shouldFetchPL, Captured.fetchesLogs, shouldFetchSource, applyFinally,
      updateCache, cachedData, Option.orElse, hmd, ActiveKey.toCacheKey]

/-! ## Claims -/

/-- **C9.** On an attachment set with no `uploads/` path entries and no
`File` entries, selecting a single file (`addLocal([b])` is
`handleFileChange` with a one-element array) and then removing index 0
of the Local subsequence (`handleRemoveFile(0, true)`) returns the set
to empty. -/
theorem addLocal_removeAt_returns_empty (s : List FileOrPath) (b : String)
    (hr : s.filter FileOrPath.isUploadsPath = [])
    (_hl : s.filter FileOrPath.isFile = []) :
    handleRemoveFile (handleFileChange s [.file b]) 0 true = [] := by
  simp [handleFileChange, handleRemoveFile, hr, List.filter_append,
    FileOrPath.isFile, FileOrPath.isUploadsPath, List.eraseIdx]

/-- Witness for C9 at the empty set and a concrete file. -/
theorem addLocal_removeAt_returns_empty_witness :
    (([] : List FileOrPath).filter FileOrPath.isUploadsPath = [] ∧
     ([] : List FileOrPath).filter FileOrPath.isFile = []) ∧
    handleRemoveFile (handleFileChange [] [.file "design.pdf"]) 0 true = [] :=
  ⟨⟨rfl, rfl⟩, addLocal_removeAt_returns_empty [] "design.pdf" rfl rfl⟩

/-- **C4, counterexample.** The code compares `now - timestamp > cacheTTL`
(App.jsx line 841), so at `now - fetchedAtEpochMs = 300000` exactly, the
entry is still served from cache, while the claim requires
`now - fetchedAtEpochMs < 300000` for freshness. -/
theorem ttl_boundary_counterexample :
    isFreshCode (some ⟨([0] : List Nat), 0⟩) 300000 = true ∧
    ¬((300000 : Nat) - 0 < 300000) := by
  decide

/-- **C4, amended.** A present cache entry is fresh (served without a
network read when no user action forces a refetch) iff
`now - fetchedAtEpochMs ≤ 300000`; an absent entry is never fresh. In
particular an entry written at `t = 0` is fresh at `t = 299999` and at
`t = 300000`, and not fresh once `now - fetchedAtEpochMs > 300000`. -/
theorem isFresh_iff_within_ttl {R : Type} (d : List R) (ts now : Nat) :
    (isFreshCode (some ⟨d, ts⟩) now = true ↔ now - ts ≤ 300000) ∧
    isFreshCode (none : Option (CacheEntry R)) now = false := by
  constructor
  · simp [isFreshCode, shouldFetchSource, cacheTTL]
  · simp [isFreshCode, shouldFetchSource]

/-- **C3, counterexample.** In the success path of `handleRequest` the
caller's success callback (App.jsx line 1043) runs strictly before the
resync `fetchData(true)` is issued (line 1044), so the resync is not
issued before control returns to the caller's success path. -/
theorem resync_after_success_callback_counterexample :
    let tr := handleRequestTrace true (.ok ())
    MutEvent.runSuccessCallback ∈ tr ∧ MutEvent.issueResyncUserAction ∈ tr ∧
    tr.indexOf MutEvent.runSuccessCallback < tr.indexOf MutEvent.issueResyncUserAction := by
  decide

/-- **C3, amended.** On every successful mutation the active collection's
cache entry and the product-lines list's cache entry are both reset to
empty data with zero timestamp, and this invalidation happens before the
caller's success callback; the `resync(activeKey, UserAction)` is issued
immediately after the success callback (not before it), still before the
mutation's terminating step. -/
theorem mutation_success_invalidates_and_resyncs :
    (∀ (R : Type) (cache : CacheKey → Option (CacheEntry R)) (akey : ActiveKey),
      invalidateOnSuccess akey cache akey.toCacheKey = some ⟨[], 0⟩ ∧
      invalidateOnSuccess akey cache .productLinesList = some ⟨[], 0⟩) ∧
    (let tr := handleRequestTrace true (.ok ())
     tr.indexOf MutEvent.invalidateCaches < tr.indexOf MutEvent.runSuccessCallback ∧
     tr.indexOf MutEvent.runSuccessCallback < tr.indexOf MutEvent.issueResyncUserAction ∧
     tr.indexOf MutEvent.issueResyncUserAction < tr.indexOf MutEvent.setLoadingOff) := by
  refine ⟨fun R cache akey => ⟨?_, ?_⟩, by decide⟩
  · simp [invalidateOnSuccess]
  · simp [invalidateOnSuccess]

/-- **C8, counterexample.** Two `handleRequest` invocations for the same
collection key under the schedule `[0, 1, 1, 0]`: invocation 1 issues
its request (block `(1, 0)`) strictly between invocation 0's request
issue `(0, 0)` and completion `(0, 1)` — that is, while invocation 0 is
pending — yet invocation 1 runs to completion (phase 2) instead of being
rejected, and the two cycles interleave. -/
theorem concurrent_mutation_not_rejected_counterexample :
    let r := gatewayRun true [0, 1, 1, 0]
    r.events = [(0, 0), (1, 0), (1, 1), (0, 1)] ∧ r.phases 1 = 2 ∧ r.phases 0 = 2 := by
  decide

/-- **C8, amended.** `handleRequest` keeps no per-key in-flight record:
under every interleaving schedule an authenticated invocation advances
unconditionally through its request and invalidate/resync blocks, one
per scheduled slot until its two blocks are done — a second mutation for
the same key issued while one is pending is executed and interleaved,
never rejected. The only guard is the missing-token early return, under
which no invocation starts. -/
theorem mutations_never_rejected (sched : List (Fin 2)) (i : Fin 2) :
    (gatewayRun true sched).phases i = min (sched.count i) 2 ∧
    (gatewayRun false sched).phases i = 0 := by
  constructor
  · have h := gatewayRun_foldl_count i sched ⟨fun _ => 0, []⟩ (by simp)
    simpa [gatewayRun] using h
  · have : ∀ st : GatewayRun, (sched.foldl (gatewayStep false) st).phases i = st.phases i := by
      induction sched with
      | nil => intro st; rfl
      | cons j rest ih => intro st; rw [List.foldl_cons]; exact ih (gatewayStep false st j)
    simpa [gatewayRun] using this ⟨fun _ => 0, []⟩

/-- **C10.** When a needed primary or cross-reference fetch succeeds
but returns an empty array, it is treated identically to a failed
fetch: the view falls back to the previously cached data for that
source and the cache entry (data and timestamp) is not updated. Stated
for a user-action resync (every source needed) with sibling fetches
succeeding arbitrarily. -/
theorem empty_fetch_falls_back_to_cache :
    (∀ (R L : Type) (akey : ActiveKey) (iil : Bool) (now : Nat)
        (cache : CacheKey → Option (CacheEntry R)) (lgs : List L)
        (s : AppState R L) (ld : List L) (pd : List R),
      (resolveFetch s ⟨akey, true, iil, now, cache, lgs⟩ (.ok []) (.ok ld) (.ok pd)).items
          = cachedData cache akey.toCacheKey ∧
      (resolveFetch s ⟨akey, true, iil, now, cache, lgs⟩ (.ok []) (.ok ld) (.ok pd)).cache
          akey.toCacheKey = s.cache akey.toCacheKey) ∧
    (∀ (R L : Type) (akey : ActiveKey) (iil : Bool) (now : Nat)
        (cache : CacheKey → Option (CacheEntry R)) (lgs : List L)
        (s : AppState R L) (md : List R) (ld : List L),
      (resolveFetch s ⟨akey, true, iil, now, cache, lgs⟩ (.ok md) (.ok ld)
          (.ok [])).allProductLines = cachedData cache .productLinesList ∧
      (resolveFetch s ⟨akey, true, iil, now, cache, lgs⟩ (.ok md) (.ok ld)
          (.ok [])).cache .productLinesList = s.cache .productLinesList) := by
  constructor
  · intro R L akey iil now cache lgs s ld pd
    obtain ⟨h1, _, _, h4, _⟩ := resolveFetch_all_ok akey iil now cache lgs s [] ld pd
    simp only [List.isEmpty_nil, if_true] at h1 h4
    exact ⟨h1, h4⟩
  · intro R L akey iil now cache lgs s md ld
    obtain ⟨_, h2, _, _, h5, _⟩ := resolveFetch_all_ok akey iil now cache lgs s md ld []
    simp only [List.isEmpty_nil, if_true] at h2 h5
    exact ⟨h2, h5⟩

/-- **C2 (code bug).** An authentication rejection is reported by the
API as a non-2xx response with message `Invalid or expired token`;
`safeFetch` (App.jsx lines 848-861) catches it, records the raw
message, and resolves with `[]`, so the session-teardown branch of the
outer catch (lines 928-935) never runs: the merge proceeds over the
sibling results, `handleLogout` does not fire, and the surfaced message
is the raw token error, not the session-expired message. -/
theorem auth_rejection_not_shortcircuited :
    ∀ (R L : Type) (akey : ActiveKey) (iil : Bool) (now : Nat)
      (cache : CacheKey → Option (CacheEntry R)) (lgs : List L)
      (s : AppState R L) (ld : List L) (pd : List R),
      (resolveFetch s ⟨akey, true, iil, now, cache, lgs⟩
          (.httpErr "Invalid or expired token") (.ok ld) (.ok pd)).loggedOut = s.loggedOut ∧
      (resolveFetch s ⟨akey, true, iil, now, cache, lgs⟩
          (.httpErr "Invalid or expired token") (.ok ld) (.ok pd)).apiError
        = some "Invalid or expired token" ∧
      (resolveFetch s ⟨akey, true, iil, now, cache, lgs⟩
          (.httpErr "Invalid or expired token") (.ok ld) (.ok pd)).items
        = cachedData cache akey.toCacheKey ∧
      (resolveFetch s ⟨akey, true, iil, now, cache, lgs⟩
          (.httpErr "Invalid or expired token") (.ok ld) (.ok pd)).logs = ld := by
  intro R L akey iil now cache lgs s ld pd
  obtain ⟨h1, _, h3, h4, _, _, h7, _⟩ :=
    resolveFetch_main_httpErr akey iil now cache lgs s "Invalid or expired token" ld pd
  exact ⟨h4, h3, h1, h7⟩

/-- **C1, counterexample.** Starting on `products` with all cache
entries empty, switch to `product_lines` (fetch A issued, tagged
`product_lines`) and then back to `products` (fetch B issued, tagged
`products`) before either resolves. Resolve B (items `[2]`) first,
then A (items `[1]`): the final active key is `products` and B is the
response tagged with it, yet the view ends showing A's data `[1]` —
the stale fetch was applied on arrival, not discarded. -/
theorem stale_fetch_not_discarded_counterexample :
    let s0 : AppState Nat Nat := ⟨.products, [], [], [], initialCache Nat, none,
      false, false, false⟩
    let sw1 := switchCollection 100 s0 .product_lines
    let sw2 := switchCollection 100 sw1.1 .products
    let rB := resolveFetch sw2.1 sw2.2 (.ok [2]) (.ok ([] : List Nat)) (.ok [])
    let rA := resolveFetch rB sw1.2 (.ok [1]) (.ok ([] : List Nat)) (.ok [])
    sw1.2.activeKey = .product_lines ∧ sw2.2.activeKey = .products ∧
    rB.items = [2] ∧ rA.activeKey = .products ∧ rA.items = [1] ∧ rA.items ≠ [2] := by
  decide

/-- **C1, amended.** Each outstanding fetch is tagged (by closure
capture) with the collection key it targets, but a resolving fetch is
not discarded when the active key has changed: its non-empty primary
response replaces the view items and is written to the cache under the
captured key, whatever the currently active key of the arrival-time
state `s`; with several fetches pending, each is applied on arrival and
the last arrival wins. -/
theorem fetch_applied_under_captured_key :
    ∀ (R L : Type) (akey : ActiveKey) (iil : Bool) (now : Nat)
      (cache : CacheKey → Option (CacheEntry R)) (lgs : List L)
      (s : AppState R L) (d : List R) (ld : List L) (pd : List R),
      (resolveFetch s ⟨akey, true, iil, now, cache, lgs⟩ (.ok d) (.ok ld) (.ok pd)).items
        = (if d.isEmpty then cachedData cache akey.toCacheKey else d) ∧
      (resolveFetch s ⟨akey, true, iil, now, cache, lgs⟩ (.ok d) (.ok ld) (.ok pd)).cache
          akey.toCacheKey
        = (if d.isEmpty then s.cache akey.toCacheKey else some ⟨d, now⟩) ∧
      (resolveFetch s ⟨akey, true, iil, now, cache, lgs⟩ (.ok d) (.ok ld)
          (.ok pd)).activeKey = s.activeKey := by
  intro R L akey iil now cache lgs s d ld pd
  obtain ⟨h1, _, _, h4, _, _, h7, _⟩ := resolveFetch_all_ok akey iil now cache lgs s d ld pd
  exact ⟨h1, h4, h7⟩

/-- **C5, counterexample.** Two refutations of the claim as stated.
First, the audit-log source has no cache fallback: with previous logs
`[5]` on screen, a user-action resync whose logs fetch fails (a
non-2xx) blanks the log view to `[]` — a transient failure does blank
the UI for that source. Second, a malformed body on a 2xx primary
response escapes `safeFetch` and rejects the whole `Promise.all`: the
sibling product-lines response `[11]` is discarded (view keeps `[9]`)
instead of being applied — the failure is not isolated to its own
source. -/
theorem transient_failure_blanks_logs_counterexample :
    (let s : AppState Nat Nat := ⟨.products, [7], [5], [9], initialCache Nat, none,
       false, false, false⟩
     let c : Captured Nat Nat := ⟨.products, true, false, 1000, initialCache Nat, [5]⟩
     let r := resolveFetch s c (.ok [7]) (.httpErr "Failed to fetch Audit Logs.") (.ok [9])
     r.logs = [] ∧ s.logs = [5] ∧ r.loggedOut = false) ∧
    (let s : AppState Nat Nat := ⟨.products, [7], [5], [9], initialCache Nat, none,
       false, false, false⟩
     let c : Captured Nat Nat := ⟨.products, true, false, 1000, initialCache Nat, [5]⟩
     let r := resolveFetch s c (.badBody "Unexpected token < in JSON at position 0")
       (.ok [5]) (.ok [11])
     r.allProductLines = [9] ∧ r.logs = [5] ∧
       r.apiError = some "Unexpected token < in JSON at position 0" ∧
       r.loggedOut = false) := by
  constructor
  · decide
  · decide

/-- **C5, amended.** A non-2xx response or network failure on one
source of a user-action resync degrades only that source: it is caught
inside `safeFetch`, recorded as a non-fatal error (no logout), the
siblings' results are still applied, and the primary and
cross-reference sources fall back to the captured cached data when
their result is empty with no cache write. The audit-log source has no
cache fallback: its view state is replaced by the fetched result, which
is empty when its own fetch failed. (A malformed body on a 2xx
response is not isolated; it rejects the whole merge.) -/
theorem fetch_failure_isolated_with_fallback :
    (∀ (R L : Type) (akey : ActiveKey) (iil : Bool) (now : Nat)
        (cache : CacheKey → Option (CacheEntry R)) (lgs : List L)
        (s : AppState R L) (m : String) (ld : List L) (pd : List R),
      (resolveFetch s ⟨akey, true, iil, now, cache, lgs⟩ (.httpErr m) (.ok ld)
          (.ok pd)).items = cachedData cache akey.toCacheKey ∧
      (resolveFetch s ⟨akey, true, iil, now, cache, lgs⟩ (.httpErr m) (.ok ld)
          (.ok pd)).cache akey.toCacheKey = s.cache akey.toCacheKey ∧
      (resolveFetch s ⟨akey, true, iil, now, cache, lgs⟩ (.httpErr m) (.ok ld)
          (.ok pd)).apiError = some m ∧
      (resolveFetch s ⟨akey, true, iil, now, cache, lgs⟩ (.httpErr m) (.ok ld)
          (.ok pd)).loggedOut = s.loggedOut ∧
      (resolveFetch s ⟨akey, true, iil, now, cache, lgs⟩ (.httpErr m) (.ok ld)
          (.ok pd)).allProductLines
        = (if pd.isEmpty then cachedData cache .productLinesList else pd) ∧
      (resolveFetch s ⟨akey, true, iil, now, cache, lgs⟩ (.httpErr m) (.ok ld)
          (.ok pd)).logs = ld) ∧
    (∀ (R L : Type) (akey : ActiveKey) (iil : Bool) (now : Nat)
        (cache : CacheKey → Option (CacheEntry R)) (lgs : List L)
        (s : AppState R L) (md : List R) (m2 : String) (pd : List R),
      (resolveFetch s ⟨akey, true, iil, now, cache, lgs⟩ (.ok md) (.httpErr m2)
          (.ok pd)).logs = ([] : List L) ∧
      (resolveFetch s ⟨akey, true, iil, now, cache, lgs⟩ (.ok md) (.httpErr m2)
          (.ok pd)).loggedOut = s.loggedOut) := by
  constructor
  · intro R L akey iil now cache lgs s m ld pd
    obtain ⟨h1, h2, h3, h4, h5, _, h7, _⟩ :=
      resolveFetch_main_httpErr akey iil now cache lgs s m ld pd
    exact ⟨h1, h2, h3, h4, h5, h7⟩
  · intro R L akey iil now cache lgs s md m2 pd
    obtain ⟨h1, h2, _⟩ := resolveFetch_logs_httpErr akey iil now cache lgs s md m2 pd
    exact ⟨h1, h2⟩

/-- An `uploads/` path entry is not a `File` entry. -/
theorem FileOrPath.isFile_false_of_uploads (a : FileOrPath)
    (h : a.isUploadsPath = true) : a.isFile = false := by
  cases a <;> simp_all [FileOrPath.isUploadsPath, FileOrPath.isFile]

/-- The JSON branch never renames a key: a produced field keeps the key
of the body entry it came from. -/
theorem jsonFieldOfEntry_key (k0 : String) (v0 : JSVal) (k : String) (v : JSVal)
    (h : jsonFieldOfEntry (k0, v0) = some (k, v)) : k = k0 := by
  by_cases hid : k0 = "id"
  · simp [jsonFieldOfEntry, hid] at h
  · rcases v0 with s | n | b | _ | _ | es0 <;>
      by_cases hc : k0 ∈ fileFields <;>
      simp [jsonFieldOfEntry, hid, hc] at h <;>
      exact h.1.symm

/-- No required field of either active collection is the
`prod_if_customer_in_china` exemption. -/
theorem chinaSkip_required (k : ActiveKey) (f : String) (hf : f ∈ requiredFields k) :
    chinaSkip k f = false := by
  cases k <;> simp [requiredFields] at hf <;> rcases hf with rfl | rfl <;> decide

/-- A field missing in the claim's sense is listed by the error-message
filter (when not exempted). -/
theorem missingPerClaim_filter (k : ActiveKey) (data : String → JSVal) (f : String)
    (hc : chinaSkip k f = false) (hm : missingPerClaim f (data f) = true) :
    missingRequiredFilter k data f = true := by
  by_cases hfile : includesStr (getFieldType f) "file" = true
  · simp only [missingPerClaim, hfile, if_true, decide_eq_true_eq] at hm
    simp [missingRequiredFilter, hc, hfile, hm]
  · simp only [missingPerClaim, hfile] at hm
    simp [missingRequiredFilter, hc, hfile]
    simp at hm
    exact hm

/-- A field missing in the claim's sense fails its required check (when
not exempted). -/
theorem missingPerClaim_not_ok (k : ActiveKey) (data : String → JSVal) (f : String)
    (hc : chinaSkip k f = false) (hm : missingPerClaim f (data f) = true) :
    requiredFieldOk k data f = false := by
  by_cases hfile : includesStr (getFieldType f) "file" = true
  · simp only [missingPerClaim, hfile, if_true, decide_eq_true_eq] at hm
    simp [requiredFieldOk, hc, hfile, hm]
  · simp only [missingPerClaim, hfile] at hm
    simp at hm
    simp [requiredFieldOk, hc, hfile, hm]

/-- **C6.** The mutation payload encoding: the whole request is
multipart exactly when some attachment field holds at least one Local
(`File`) entry; in the multipart encoding each attachment field emits
its Local entries as binary parts under the field key and its
`uploads/` Remote entries as text parts under the `_retained` marker
key, in order; with no Local entry anywhere the request is JSON and
(for well-formed bodies whose attachment fields are arrays) every
attachment field carries only plain `uploads/` path strings, never a
`File`. -/
theorem mutation_encoding (body : List (String × JSVal))
    (wf : ∀ p ∈ body, fileFields.contains p.1 = true → ∃ es, p.2 = JSVal.arr es) :
    ((encodeBody body).isMultipart = hasFileBody body) ∧
    (hasFileBody body = true →
      encodeBody body = .multipart (body.flatMap multipartEntryParts) ∧
      (∀ k es, fileFields.contains k = true →
        multipartEntryParts (k, .arr es) =
          es.filterMap (fun a =>
            match a with
            | .file n => some (k, .filePart n)
            | .path p => if startsWithStr p "uploads/"
                then some (k ++ "_retained", .textPart p) else none))) ∧
    (hasFileBody body = false →
      ∃ fields, encodeBody body = .json fields ∧
        (∀ k es, (k, JSVal.arr es) ∈ body → fileFields.contains k = true → k ≠ "id" →
          (k, JSVal.arr (es.filter FileOrPath.isUploadsPath)) ∈ fields) ∧
        (∀ k v, (k, v) ∈ fields → fileFields.contains k = true →
          ∃ es, v = JSVal.arr es ∧ es.all FileOrPath.isUploadsPath = true ∧
            es.all (fun a => !a.isFile) = true)) := by
  refine ⟨?_, fun h => ⟨?_, ?_⟩, fun h => ?_⟩
  · by_cases h : hasFileBody body <;> simp [encodeBody, h, Encoded.isMultipart]
  · simp [encodeBody, h]
  · intro k es hk
    have hk' : k ∈ fileFields := by simpa using hk
    simp [multipartEntryParts, hk']
  · refine ⟨body.filterMap jsonFieldOfEntry, by simp [encodeBody, h], ?_, ?_⟩
    · intro k es hmem hk hne
      have hk' : k ∈ fileFields := by simpa using hk
      refine List.mem_filterMap.mpr ⟨(k, JSVal.arr es), hmem, ?_⟩
      simp [jsonFieldOfEntry, hne, hk']
    · intro k v hmem hk
      obtain ⟨⟨k0, v0⟩, hmem0, henc⟩ := List.mem_filterMap.mp hmem
      have hkk : k = k0 := jsonFieldOfEntry_key k0 v0 k v henc
      subst hkk
      obtain ⟨es0, rfl⟩ := wf (k, v0) hmem0 hk
      have hk' : k ∈ fileFields := by simpa using hk
      by_cases hid : k = "id"
      · simp [jsonFieldOfEntry, hid] at henc
      · simp [jsonFieldOfEntry, hid, hk'] at henc
        refine ⟨es0.filter FileOrPath.isUploadsPath, henc.symm, ?_, ?_⟩
        · rw [List.all_eq_true]
          intro a ha
          exact (List.mem_filter.mp ha).2
        · rw [List.all_eq_true]
          intro a ha
          simp [FileOrPath.isFile_false_of_uploads a (List.mem_filter.mp ha).2]

/-- Witness for C6 at a concrete body holding one Remote and one Local
attachment entry. -/
theorem mutation_encoding_witness :
    (∀ p ∈ [("name", JSVal.str "x"),
        ("attachments_raw", JSVal.arr [.path "uploads/a.pdf", .file "b.bin"])],
      fileFields.contains p.1 = true → ∃ es, p.2 = JSVal.arr es) ∧
    (((encodeBody [("name", JSVal.str "x"),
        ("attachments_raw", JSVal.arr [.path "uploads/a.pdf", .file "b.bin"])]).isMultipart
      = hasFileBody [("name", JSVal.str "x"),
        ("attachments_raw", JSVal.arr [.path "uploads/a.pdf", .file "b.bin"])]) ∧
     (hasFileBody [("name", JSVal.str "x"),
        ("attachments_raw", JSVal.arr [.path "uploads/a.pdf", .file "b.bin"])] = true →
      encodeBody [("name", JSVal.str "x"),
        ("attachments_raw", JSVal.arr [.path "uploads/a.pdf", .file "b.bin"])]
        = .multipart ([("name", JSVal.str "x"),
            ("attachments_raw", JSVal.arr [.path "uploads/a.pdf", .file "b.bin"])].flatMap
              multipartEntryParts) ∧
      (∀ k es, fileFields.contains k = true →
        multipartEntryParts (k, .arr es) =
          es.filterMap (fun a =>
            match a with
            | .file n => some (k, .filePart n)
            | .path p => if startsWithStr p "uploads/"
                then some (k ++ "_retained", .textPart p) else none))) ∧
     (hasFileBody [("name", JSVal.str "x"),
        ("attachments_raw", JSVal.arr [.path "uploads/a.pdf", .file "b.bin"])] = false →
      ∃ fields, encodeBody [("name", JSVal.str "x"),
          ("attachments_raw", JSVal.arr [.path "uploads/a.pdf", .file "b.bin"])]
          = .json fields ∧
        (∀ k es, (k, JSVal.arr es) ∈ [("name", JSVal.str "x"),
            ("attachments_raw", JSVal.arr [.path "uploads/a.pdf", .file "b.bin"])] →
          fileFields.contains k = true → k ≠ "id" →
          (k, JSVal.arr (es.filter FileOrPath.isUploadsPath)) ∈ fields) ∧
        (∀ k v, (k, v) ∈ fields → fileFields.contains k = true →
          ∃ es, v = JSVal.arr es ∧ es.all FileOrPath.isUploadsPath = true ∧
            es.all (fun a => !a.isFile) = true))) :=
  ⟨by
    intro p hp hc
    simp only [List.mem_cons, List.not_mem_nil, or_false] at hp
    rcases hp with rfl | rfl
    · exact absurd hc (by decide)
    · exact ⟨[.path "uploads/a.pdf", .file "b.bin"], rfl⟩,
   mutation_encoding [("name", JSVal.str "x"),
     ("attachments_raw", JSVal.arr [.path "uploads/a.pdf", .file "b.bin"])]
     (by
      intro p hp hc
      simp only [List.mem_cons, List.not_mem_nil, or_false] at hp
      rcases hp with rfl | rfl
      · exact absurd hc (by decide)
      · exact ⟨[.path "uploads/a.pdf", .file "b.bin"], rfl⟩)⟩

/-- **C7.** A Create attempt with at least one required field missing
(in the claim's sense: an empty/falsy value, or an empty attachment
array for an attachment-typed required field) surfaces a validation
error — `handleCreate` returns before `handleRequest` is invoked, so no
network call is issued — and the single aggregated message names every
required field missing in that sense. -/
theorem create_validation_aggregates_missing (k : ActiveKey) (data : String → JSVal)
    (h : ∃ f ∈ requiredFields k, missingPerClaim f (data f) = true) :
    ∃ L, handleCreate k data =
        .validationError ("Missing required fields: " ++ String.intercalate ", " L) ∧
      ∀ f ∈ requiredFields k, missingPerClaim f (data f) = true → f ∈ L := by
  obtain ⟨f, hf, hm⟩ := h
  have hok := missingPerClaim_not_ok k data f (chinaSkip_required k f hf) hm
  have hall : (requiredFields k).all (requiredFieldOk k data) = false := by
    rw [List.all_eq_false]
    exact ⟨f, hf, by simp [hok]⟩
  refine ⟨(requiredFields k).filter (missingRequiredFilter k data), ?_, ?_⟩
  · simp [handleCreate, hall]
  · intro g hg hmg
    exact List.mem_filter.mpr
      ⟨hg, missingPerClaim_filter k data g (chinaSkip_required k g hg) hmg⟩

/-- Witness for C7: creating a product line with every field left as
the empty string. -/
theorem create_validation_aggregates_missing_witness :
    (∃ f ∈ requiredFields .product_lines,
        missingPerClaim f ((fun _ => JSVal.str "") f) = true) ∧
    (∃ L, handleCreate .product_lines (fun _ => JSVal.str "") =
        .validationError ("Missing required fields: " ++ String.intercalate ", " L) ∧
      ∀ f ∈ requiredFields .product_lines,
        missingPerClaim f ((fun _ => JSVal.str "") f) = true → f ∈ L) :=
  ⟨⟨"name", by decide, by decide⟩,
   create_validation_aggregates_missing .product_lines (fun _ => JSVal.str "")
     ⟨"name", by decide, by decide⟩⟩

end ProductLineApp
